import Mathlib

/-!
Shallow embedding of `my_functions.py` (SISE task 2): a CSV-directory data
loader, a thin wrapper over a Keras feed-forward regressor, and an
error-CDF computation used for plotting.

Modelling conventions:
* machine floats are modelled by rationals (`ℚ`);
* the NaN array produced by the division by zero in `calculate_cdf` on a
  non-empty input with zero total sum is modelled by `Option.none`; the
  empty input divides an empty array elementwise, producing no NaN, and
  stays in the defined branch;
* Python strings used as file names are modelled by `List Char` (Python
  compares strings lexicographically by code point, as does the list
  order used here); configuration strings are modelled by `String`;
* the opaque numerical library (gradient step, forward pass) is an
  explicit `Backend` record; the wrapper code itself is translated
  line by line.
-/

namespace SISE

/-! ### Error-CDF computation (`my_functions.py`, lines 137-140) -/

/-- Embedding of `np.sort(errors)` (line 138): the input arranged in
ascending order.  Over a linear order every correct sort returns this
same list, so insertion sort is a faithful model of the result. -/
def npSort (l : List ℚ) : List ℚ :=
  l.insertionSort (· ≤ ·)

/-- Embedding of `np.cumsum`: running sums, the i-th entry is the sum of
the first `i+1` inputs. -/
def cumsum : List ℚ → List ℚ
  | [] => []
  | x :: xs => x :: (cumsum xs).map (x + ·)

/-- Embedding of `calculate_cdf` (lines 137-140): sort the errors
ascending, divide the running cumulative sum elementwise by the total
sum, and return the pair of the sorted errors and the CDF values.  When
the input is non-empty and the total sum is zero,
`np.cumsum(...) / np.sum(...)` divides by zero elementwise and fills
the result with NaN; that undefined outcome is modelled as `none`.  On
the empty input the elementwise division runs over zero elements,
produces no NaN, and returns a pair of empty arrays normally, so the
empty input stays in the defined branch. -/
def calculate_cdf (errors : List ℚ) : Option (List ℚ × List ℚ) :=
  let sorted_errors := npSort errors
  let total := sorted_errors.sum
  if sorted_errors ≠ [] ∧ total = 0 then none
  else some (sorted_errors, (cumsum sorted_errors).map (· / total))

/-! ### Data loader (`load_data`, lines 11-46) -/

/-- File names are Python strings, modelled as lists of characters. -/
abbrev FileName := List Char

/-- One parsed CSV record with the four columns named on line 12; a
missing value (NaN after `pd.read_csv`) is `none`. -/
structure Row where
  input_X : Option ℚ
  input_Y : Option ℚ
  expected_X : Option ℚ
  expected_Y : Option ℚ
deriving DecidableEq

/-- A row survives `dropna()` exactly when every field is present. -/
def Row.complete (r : Row) : Bool :=
  r.input_X.isSome && r.input_Y.isSome && r.expected_X.isSome && r.expected_Y.isSome

/-- A directory on disk: a finite list of (file name, parsed CSV rows)
entries, in the unspecified order `os.listdir` returns them. -/
abbrev Dir := List (FileName × List Row)

/-- The four characters of the `".csv"` extension. -/
def csvSuffix : FileName := ['.', 'c', 's', 'v']

/-- Embedding of `file.endswith(".csv")` (lines 24-25). -/
def endsWithCsv (f : FileName) : Bool :=
  f.reverse.take 4 == csvSuffix.reverse

/-- Embedding of `sorted(file for file in os.listdir(path) if
file.endswith(".csv"))` (lines 24-25): keep the CSV files, sorted
lexicographically. -/
def listdirCsvSorted (d : Dir) : List FileName :=
  List.insertionSort (· ≤ ·) ((d.map Prod.fst).filter (fun f => endsWithCsv f))

/-- The parsed rows of the named file, as `pd.read_csv(file_path,
names=columns)` returns them (line 29): a headerless four-column table. -/
def fileRows (d : Dir) (name : FileName) : List Row :=
  match d.find? (fun e => e.1 == name) with
  | some e => e.2
  | none => []

/-- Embedding of one folder loop (lines 27-30 resp. 32-35): visit the
sorted CSV file list and concatenate the parsed tables in that order
(`pd.concat` with `ignore_index` keeps encounter order). -/
def readFolder (d : Dir) : List Row :=
  ((listdirCsvSorted d).map (fun n => fileRows d n)).flatten

/-- Embedding of `dropna()` (lines 38-39): remove every row that has a
missing value, keeping the remaining rows in order. -/
def dropna (rows : List Row) : List Row :=
  rows.filter (fun r => r.complete)

/-- Embedding of `load_data` (lines 11-46) for the two static and two
dynamic source directories (the `for i in range(2)` loop, unrolled):
training data is the concatenation of both static folders, testing data
of both dynamic folders, each followed by the `dropna` pass.  The debug
CSV writes on lines 42-43 have no effect on the returned value and are
not modelled. -/
def load_data (stat0 stat1 dyn0 dyn1 : Dir) : List Row × List Row :=
  (dropna (readFolder stat0 ++ readFolder stat1),
   dropna (readFolder dyn0 ++ readFolder dyn1))

/-! ### Model wrapper (`NeuralNetworkModel`, lines 49-133) -/

/-- The constructor keyword arguments of `NeuralNetworkModel.__init__`
(lines 50-52), with the Python default values. -/
structure NNConfig where
  hidden_layers : List Nat
  activation_function : String := "tanh"
  activation_function_out : String := "linear"
  weight_init_method : String := "glorot_uniform"
  num_of_inputs_neurons : Nat := 2
  num_of_outputs_neurons : Nat := 2
  epochs : Nat := 100
  learning_rate : ℚ := 1 / 100
  optimizer : String := "adam"
  momentum : ℚ := 9 / 10
deriving DecidableEq

/-- One `Dense(units, activation=..., kernel_initializer=...)` layer. -/
structure DenseLayer where
  units : Nat
  activation : String
  kernel_initializer : String
deriving DecidableEq

/-- Embedding of `create_model` (lines 65-85): the first hidden layer
uses `hidden_layers[0]`, which raises `IndexError` on an empty width
list (modelled as `none`); then one layer per remaining width and a
final output layer with the output activation.  No optimizer check
happens here. -/
def create_model (cfg : NNConfig) : Option (List DenseLayer) :=
  match cfg.hidden_layers with
  | [] => none
  | h0 :: rest =>
      some (DenseLayer.mk h0 cfg.activation_function cfg.weight_init_method
        :: rest.map (fun u => DenseLayer.mk u cfg.activation_function cfg.weight_init_method)
        ++ [DenseLayer.mk cfg.num_of_outputs_neurons cfg.activation_function_out
              cfg.weight_init_method])

/-- The wrapper object: configuration fields stored by `__init__`, the
`Sequential` architecture built by `create_model`, and the network's
learned parameters of opaque type `α` (weights live inside the library). -/
structure NeuralNetworkModel (α : Type) where
  config : NNConfig
  layers : List DenseLayer
  params : α

/-- Embedding of `__init__` (lines 50-63): store the configuration and
build the model.  The only failing step is `create_model` on an empty
hidden-layer list; the optimizer name is stored unchecked. -/
def NeuralNetworkModel.init {α : Type} (cfg : NNConfig) (initial_params : α) :
    Option (NeuralNetworkModel α) :=
  (create_model cfg).map (fun ls => NeuralNetworkModel.mk cfg ls initial_params)

/-- The two optimizer objects the wrapper can construct (line 96 and
line 98). -/
inductive Optimizer where
  | adam (learning_rate : ℚ)
  | sgd (learning_rate momentum : ℚ)
deriving DecidableEq

/-- Embedding of the optimizer selection in `train` (lines 95-100):
`Adam(learning_rate)` for `"adam"`, `SGD(learning_rate, momentum)` for
`"sgd"`, otherwise the `ValueError` of line 100. -/
def selectOptimizer (cfg : NNConfig) : Except String Optimizer :=
  if cfg.optimizer = "adam" then
    Except.ok (Optimizer.adam cfg.learning_rate)
  else if cfg.optimizer = "sgd" then
    Except.ok (Optimizer.sgd cfg.learning_rate cfg.momentum)
  else
    Except.error "Optimizer must be either \"adam\" or \"sgd\""

/-- A dataset record after `dropna`: the four numeric columns used by
`train` and `test` (lines 89-92 and 111-112). -/
structure CRow where
  input_X : ℚ
  input_Y : ℚ
  expected_X : ℚ
  expected_Y : ℚ
deriving DecidableEq

/-- The `mean_squared_error` loss/metric the model is compiled with
(line 103): the mean of the squared componentwise differences between
the predictions and the expected columns, over all `2·M` output scalars. -/
def mseValue (pred : ℚ → ℚ → ℚ × ℚ) (rows : List CRow) : ℚ :=
  (rows.map (fun r =>
      ((pred r.input_X r.input_Y).1 - r.expected_X) ^ 2
        + ((pred r.input_X r.input_Y).2 - r.expected_Y) ^ 2)).sum
    / (2 * rows.length)

/-- The numerical library underneath the wrapper: one epoch of gradient
updates under a given optimizer, and the network forward pass. -/
structure Backend (α : Type) where
  step : Optimizer → List CRow → α → α
  predict : α → ℚ → ℚ → ℚ × ℚ

/-- The `History` object returned by `model.fit`: the per-epoch series
`history.history['mse']` and `history.history['val_mse']`. -/
structure History where
  mse : List ℚ
  val_mse : List ℚ
deriving DecidableEq

/-- Embedding of `model.fit(..., epochs=n, validation_data=...)`
(line 105): run `n` epochs; each epoch updates the parameters on the
training data and records one training-mse and one validation-mse
entry. -/
def fit {α : Type} (b : Backend α) (opt : Optimizer) (train_data val_data : List CRow) :
    Nat → α → α × History
  | 0, p => (p, History.mk [] [])
  | n + 1, p =>
      let p' := b.step opt train_data p
      let r := fit b opt train_data val_data n p'
      (r.1, History.mk (mseValue (b.predict p') train_data :: r.2.mse)
        (mseValue (b.predict p') val_data :: r.2.val_mse))

/-- Embedding of `train` (lines 87-107): select the optimizer (raising
on an unknown name before anything is fitted), then fit for the
configured number of epochs and return the updated model together with
the history. -/
def NeuralNetworkModel.train {α : Type} (m : NeuralNetworkModel α) (b : Backend α)
    (training_data testing_data : List CRow) :
    Except String (NeuralNetworkModel α × History) :=
  match selectOptimizer m.config with
  | Except.error e => Except.error e
  | Except.ok opt =>
      let r := fit b opt training_data testing_data m.config.epochs m.params
      Except.ok ({ m with params := r.1 }, r.2)

/-- Embedding of `test` (lines 109-118): evaluate the mean-squared
error on the dataset and predict one output pair per record; the model
is returned unchanged (evaluate/predict are read-only, no parameter
update happens). -/
def NeuralNetworkModel.test {α : Type} (m : NeuralNetworkModel α) (b : Backend α)
    (testing_data : List CRow) : (ℚ × List (ℚ × ℚ)) × NeuralNetworkModel α :=
  ((mseValue (b.predict m.params) testing_data,
    testing_data.map (fun r => b.predict m.params r.input_X r.input_Y)), m)

/-- Embedding of `give_train_mse` (lines 128-130). -/
def give_train_mse (h : History) : List ℚ :=
  h.mse

/-- Embedding of `give_test_mse` (lines 131-133). -/
def give_test_mse (h : History) : List ℚ :=
  h.val_mse

/-! ### Helper lemmas about the CDF computation -/

lemma cumsum_length (l : List ℚ) : (cumsum l).length = l.length := by
  induction l with
  | nil => rfl
  | cons x xs ih => simp [cumsum, ih]

lemma cumsum_get (l : List ℚ) (i : ℕ) (h : i < (cumsum l).length) :
    (cumsum l).get ⟨i, h⟩ = (l.take (i + 1)).sum := by
  induction l generalizing i with
  | nil => simp [cumsum] at h
  | cons x xs ih =>
    cases i with
    | zero => simp [cumsum]
    | succ j =>
      have hj : j < (cumsum xs).length := by
        simpa [cumsum] using h
      have hstep : (cumsum (x :: xs)).get ⟨j + 1, h⟩ = x + (cumsum xs).get ⟨j, hj⟩ := by
        simp [cumsum, List.get_eq_getElem, List.getElem_map]
      rw [hstep, ih j hj, List.take_succ_cons, List.sum_cons]

lemma sum_take_mono (l : List ℚ) (hnn : ∀ e ∈ l, 0 ≤ e) {i j : ℕ} (hij : i ≤ j) :
    (l.take i).sum ≤ (l.take j).sum := by
  have h1 : l.take i = (l.take j).take i := by
    rw [List.take_take, Nat.min_eq_left hij]
  have h2 : (l.take j).sum = ((l.take j).take i).sum + ((l.take j).drop i).sum := by
    rw [← List.sum_append, List.take_append_drop]
  have h3 : 0 ≤ ((l.take j).drop i).sum := by
    refine List.sum_nonneg fun e he => hnn e ?_
    exact List.take_subset j l (List.drop_subset i (l.take j) he)
  rw [h1, h2]
  exact le_add_of_nonneg_right h3

lemma sum_pos_of_exists (l : List ℚ) (hnn : ∀ e ∈ l, 0 ≤ e)
    (hpos : ∃ e ∈ l, 0 < e) : 0 < l.sum := by
  induction l with
  | nil => simp at hpos
  | cons x xs ih =>
    rcases hpos with ⟨e, he, hepos⟩
    rcases List.mem_cons.mp he with rfl | hexs
    · have hxs : 0 ≤ xs.sum := List.sum_nonneg fun a ha => hnn a (List.mem_cons_of_mem _ ha)
      simpa [List.sum_cons] using add_pos_of_pos_of_nonneg hepos hxs
    · have hx : 0 ≤ x := hnn x (List.mem_cons_self x xs)
      have hxs : 0 < xs.sum :=
        ih (fun a ha => hnn a (List.mem_cons_of_mem _ ha)) ⟨e, hexs, hepos⟩
      simpa [List.sum_cons] using add_pos_of_nonneg_of_pos hx hxs

lemma npSort_perm (l : List ℚ) : List.Perm (npSort l) l :=
  List.perm_insertionSort _ l

lemma npSort_sorted (l : List ℚ) : (npSort l).Sorted (· ≤ ·) :=
  List.sorted_insertionSort _ l

lemma npSort_sum (l : List ℚ) : (npSort l).sum = l.sum :=
  (npSort_perm l).sum_eq

lemma calculate_cdf_eq_some (errors : List ℚ) (h : errors.sum ≠ 0) :
    calculate_cdf errors
      = some (npSort errors, (cumsum (npSort errors)).map (· / errors.sum)) := by
  have hcond : ¬(npSort errors ≠ [] ∧ errors.sum = 0) := fun hc => h hc.2
  simp only [calculate_cdf, npSort_sum, if_neg hcond]

lemma calculate_cdf_eq_none (errors : List ℚ) (hne : errors ≠ [])
    (h : errors.sum = 0) : calculate_cdf errors = none := by
  have hsne : npSort errors ≠ [] := by
    intro hnil
    apply hne
    have hlen := (npSort_perm errors).length_eq
    rw [hnil] at hlen
    exact List.length_eq_zero.mp hlen.symm
  simp only [calculate_cdf, npSort_sum, if_pos (And.intro hsne h)]

/-! ### Claims about `calculate_cdf` -/

/-- C1: on every non-empty collection of non-negative error magnitudes,
`calculate_cdf` either hits the divide-by-zero (when all magnitudes are
zero, so the total sum is zero), or returns the input sorted ascending
together with a CDF whose i-th value is the running cumulative sum
divided by the total sum: `cdf[i] = (e1 + ... + e(i+1)) / (e1 + ... +
en)` — the cumulative-magnitude-share normalization, not the rank-based
`i/n` form. -/
theorem calculate_cdf_cumulative_share (errors : List ℚ)
    (hnn : ∀ e ∈ errors, 0 ≤ e) (hne : errors ≠ []) :
    (errors.sum = 0 → calculate_cdf errors = none)
      ∧ ((∃ e ∈ errors, 0 < e) →
          ∃ s cdf, calculate_cdf errors = some (s, cdf)
            ∧ List.Perm s errors ∧ s.Sorted (· ≤ ·)
            ∧ cdf.length = errors.length
            ∧ ∀ i (hi : i < cdf.length),
                cdf.get ⟨i, hi⟩ = (s.take (i + 1)).sum / errors.sum) := by
  refine ⟨calculate_cdf_eq_none errors hne, fun hpos => ?_⟩
  have hsum : errors.sum ≠ 0 := ne_of_gt (sum_pos_of_exists errors hnn hpos)
  refine ⟨npSort errors, _, calculate_cdf_eq_some errors hsum,
    npSort_perm errors, npSort_sorted errors, ?_, ?_⟩
  · simp [cumsum_length, (npSort_perm errors).length_eq]
  · intro i hi
    have hi' : i < (cumsum (npSort errors)).length := by simpa using hi
    have hmap : ((cumsum (npSort errors)).map (· / errors.sum)).get ⟨i, hi⟩
        = (cumsum (npSort errors)).get ⟨i, hi'⟩ / errors.sum := by
      simp [List.get_eq_getElem, List.getElem_map]
    rw [hmap, cumsum_get]

/-- C1 witness: the theorem instantiated at the errors `[2, 1, 1]`. -/
theorem calculate_cdf_cumulative_share_witness :
    ∃ s cdf, calculate_cdf [(2 : ℚ), 1, 1] = some (s, cdf)
      ∧ List.Perm s [(2 : ℚ), 1, 1] ∧ s.Sorted (· ≤ ·)
      ∧ cdf.length = ([(2 : ℚ), 1, 1] : List ℚ).length
      ∧ ∀ i (hi : i < cdf.length),
          cdf.get ⟨i, hi⟩ = (s.take (i + 1)).sum / ([(2 : ℚ), 1, 1] : List ℚ).sum :=
  (calculate_cdf_cumulative_share [2, 1, 1] (by decide) (by decide)).2 (by decide)

/-- C3 counterexample: `[0]` is a non-empty collection of non-negative
errors, yet `calculate_cdf` does not return a CDF sequence ending in 1:
the total sum is zero, the normalization divides by zero and the result
is undefined (`none` in this embedding, a NaN array in NumPy). -/
theorem calculate_cdf_zero_input_no_cdf : calculate_cdf [(0 : ℚ)] = none := by
  have h : ([(0 : ℚ)] : List ℚ).sum = 0 := by simp
  exact calculate_cdf_eq_none [0] (by decide) h

/-- C3 amended: for every non-empty collection of non-negative errors
whose total sum is positive (some entry is non-zero), `calculate_cdf`
returns a non-decreasing CDF sequence whose last value equals 1, and the
returned error sequence is the input arranged in ascending order. -/
theorem calculate_cdf_monotone_last_one (errors : List ℚ)
    (hnn : ∀ e ∈ errors, 0 ≤ e) (hne : errors ≠ [])
    (hpos : ∃ e ∈ errors, 0 < e) :
    ∃ s cdf, calculate_cdf errors = some (s, cdf)
      ∧ cdf.Sorted (· ≤ ·)
      ∧ cdf.getLast? = some 1
      ∧ List.Perm s errors ∧ s.Sorted (· ≤ ·) := by
  have hsumpos : 0 < errors.sum := sum_pos_of_exists errors hnn hpos
  have hsum : errors.sum ≠ 0 := ne_of_gt hsumpos
  set s := npSort errors with hs
  have hsnn : ∀ e ∈ s, 0 ≤ e := fun e he => hnn e ((npSort_perm errors).mem_iff.mp he)
  refine ⟨s, (cumsum s).map (· / errors.sum), calculate_cdf_eq_some errors hsum,
    ?_, ?_, npSort_perm errors, npSort_sorted errors⟩
  · -- non-decreasing
    have hchain : (cumsum s).Pairwise (· ≤ ·) := by
      rw [List.pairwise_iff_get]
      intro i j hij
      rw [cumsum_get s i.val i.isLt, cumsum_get s j.val j.isLt]
      exact sum_take_mono s hsnn (Nat.succ_le_succ (Nat.le_of_lt hij))
    have : ((cumsum s).map (· / errors.sum)).Pairwise (· ≤ ·) := by
      rw [List.pairwise_map]
      exact hchain.imp fun hab => div_le_div_of_nonneg_right hab (le_of_lt hsumpos)
    exact this
  · -- last value is 1
    have hslen : 0 < s.length := by
      rw [(npSort_perm errors).length_eq]
      exact List.length_pos.mpr hne
    have hlen : 0 < ((cumsum s).map (· / errors.sum)).length := by
      simpa [cumsum_length] using hslen
    have hne' : ((cumsum s).map (· / errors.sum)) ≠ [] := List.length_pos.mp hlen
    rw [List.getLast?_eq_getLast _ hne', List.getLast_eq_get]
    have hlt : ((cumsum s).map (· / errors.sum)).length - 1
        < ((cumsum s).map (· / errors.sum)).length := Nat.sub_lt hlen Nat.one_pos
    have hi' : ((cumsum s).map (· / errors.sum)).length - 1 < (cumsum s).length := by
      simpa using hlt
    have hmap : ((cumsum s).map (· / errors.sum)).get ⟨_, hlt⟩
        = (cumsum s).get ⟨_, hi'⟩ / errors.sum := by
      simp [List.get_eq_getElem, List.getElem_map]
    rw [hmap, cumsum_get]
    have hidx : ((cumsum s).map (· / errors.sum)).length - 1 + 1 = s.length := by
      simp [cumsum_length]
      omega
    rw [hidx, List.take_length, npSort_sum]
    simp [div_self hsum]

/-- C3 amended witness: the theorem instantiated at the errors `[2, 1, 1]`. -/
theorem calculate_cdf_monotone_last_one_witness :
    ∃ s cdf, calculate_cdf [(2 : ℚ), 1, 1] = some (s, cdf)
      ∧ cdf.Sorted (· ≤ ·)
      ∧ cdf.getLast? = some 1
      ∧ List.Perm s [(2 : ℚ), 1, 1] ∧ s.Sorted (· ≤ ·) :=
  calculate_cdf_monotone_last_one [2, 1, 1] (by decide) (by decide) (by decide)

/-- C9 counterexample: the empty error collection does NOT make the
result undefined: `np.cumsum([]) / np.sum([])` divides a zero-length
array by zero, an elementwise operation over zero elements that
produces no NaN and raises nothing, so `calculate_cdf` returns the pair
of empty sequences normally — contradicting the claim that the empty
collection is an undefined case. -/
theorem calculate_cdf_empty_defined :
    calculate_cdf ([] : List ℚ) = some ([], []) := by
  decide

/-- C9 amended: `calculate_cdf` is undefined (the normalization divides
the non-empty NaN-producing array by the zero total sum) exactly when
the input is non-empty with zero total sum — for non-negative errors
the zero total sum happens exactly for the empty or all-zero
collections, and of these only the non-empty all-zero ones are
undefined, the empty collection returning empty sequences normally; for
every input with strictly positive total sum the division is
well-defined. -/
theorem calculate_cdf_zero_sum_undefined (errors : List ℚ)
    (hnn : ∀ e ∈ errors, 0 ≤ e) :
    (calculate_cdf errors = none ↔ errors ≠ [] ∧ errors.sum = 0)
      ∧ (errors.sum = 0 ↔ errors = [] ∨ ∀ e ∈ errors, e = 0)
      ∧ (0 < errors.sum → ∃ r, calculate_cdf errors = some r) := by
  refine ⟨⟨fun h => ?_, fun h => calculate_cdf_eq_none errors h.1 h.2⟩,
    ⟨fun h0 => ?_, fun h => ?_⟩,
    fun hp => ⟨_, calculate_cdf_eq_some errors (ne_of_gt hp)⟩⟩
  · by_cases hsum : errors.sum = 0
    · refine ⟨fun hnil => ?_, hsum⟩
      have hemp : calculate_cdf ([] : List ℚ) = some ([], []) := by decide
      rw [hnil, hemp] at h
      exact Option.noConfusion h
    · rw [calculate_cdf_eq_some errors hsum] at h
      exact Option.noConfusion h
  · by_contra hcon
    push_neg at hcon
    obtain ⟨hne, e, he, hne0⟩ := hcon
    have hpos : 0 < errors.sum :=
      sum_pos_of_exists errors hnn ⟨e, he, lt_of_le_of_ne (hnn e he) (Ne.symm hne0)⟩
    exact absurd h0 (ne_of_gt hpos)
  · rcases h with rfl | hall
    · simp
    · exact List.sum_eq_zero hall

/-- C9 amended witness: the theorem instantiated at the non-empty
all-zero errors `[0, 0]`. -/
theorem calculate_cdf_zero_sum_undefined_witness :
    (calculate_cdf [(0 : ℚ), 0] = none
        ↔ ([(0 : ℚ), 0] : List ℚ) ≠ [] ∧ ([(0 : ℚ), 0] : List ℚ).sum = 0)
      ∧ (([(0 : ℚ), 0] : List ℚ).sum = 0
          ↔ ([(0 : ℚ), 0] : List ℚ) = [] ∨ ∀ e ∈ ([(0 : ℚ), 0] : List ℚ), e = 0)
      ∧ (0 < ([(0 : ℚ), 0] : List ℚ).sum → ∃ r, calculate_cdf [(0 : ℚ), 0] = some r) :=
  calculate_cdf_zero_sum_undefined [0, 0] (by decide)

/-- C10: `calculate_cdf` is permutation-invariant — two inputs that are
permutations of each other give identical sorted-error and CDF
sequences, so the result depends only on the multiset of magnitudes. -/
theorem calculate_cdf_perm_invariant (l l' : List ℚ) (hp : List.Perm l l') :
    calculate_cdf l = calculate_cdf l' := by
  have hs : npSort l = npSort l' :=
    List.eq_of_perm_of_sorted ((npSort_perm l).trans (hp.trans (npSort_perm l').symm))
      (npSort_sorted l) (npSort_sorted l')
  simp only [calculate_cdf, hs]

/-- C10 witness: the theorem instantiated at the permuted pair
`[1, 2]` and `[2, 1]`. -/
theorem calculate_cdf_perm_invariant_witness :
    calculate_cdf [(1 : ℚ), 2] = calculate_cdf [(2 : ℚ), 1] :=
  calculate_cdf_perm_invariant _ _ (List.Perm.swap 2 1 [])

/-! ### Claims about the data loader -/

/-- C5: the file list of each directory keeps only names with the CSV
extension and is sorted lexicographically; moreover for every pair of
source directories in which the first static folder holds two CSV files
with 3 and 2 complete rows (and the second none), the training dataset
is their 5-row concatenation: row order within each file and sorted file
order are both preserved. -/
theorem load_data_sorted_csv_concat :
    (∀ d : Dir, (listdirCsvSorted d).Sorted (· ≤ ·))
      ∧ (∀ (d : Dir) (n : FileName),
          n ∈ listdirCsvSorted d ↔ n ∈ d.map Prod.fst ∧ endsWithCsv n = true)
      ∧ ∀ (stat0 stat1 dyn0 dyn1 : Dir) (f g : FileName) (rf rg : List Row),
          listdirCsvSorted stat0 = [f, g] →
          fileRows stat0 f = rf → fileRows stat0 g = rg →
          listdirCsvSorted stat1 = [] →
          (∀ r ∈ rf, r.complete = true) → (∀ r ∈ rg, r.complete = true) →
          rf.length = 3 → rg.length = 2 →
          (load_data stat0 stat1 dyn0 dyn1).1 = rf ++ rg
            ∧ (load_data stat0 stat1 dyn0 dyn1).1.length = 5 := by
  refine ⟨fun d => List.sorted_insertionSort _ _, fun d n => ?_, ?_⟩
  · constructor
    · intro hn
      have hmem := (List.perm_insertionSort (· ≤ ·)
        ((d.map Prod.fst).filter (fun f => endsWithCsv f))).mem_iff.mp hn
      exact ⟨List.mem_of_mem_filter hmem, List.of_mem_filter hmem⟩
    · intro ⟨h1, h2⟩
      exact (List.perm_insertionSort (· ≤ ·) _).mem_iff.mpr (List.mem_filter.mpr ⟨h1, h2⟩)
  · intro stat0 stat1 dyn0 dyn1 f g rf rg hs0 hf hg hs1 hcf hcg hrf hrg
    have h0 : readFolder stat0 = rf ++ rg := by
      unfold readFolder
      rw [hs0]
      simp [hf, hg]
    have h1 : readFolder stat1 = [] := by
      unfold readFolder
      rw [hs1]
      rfl
    have hdrop : dropna (rf ++ rg) = rf ++ rg := by
      unfold dropna
      rw [List.filter_eq_self.mpr]
      intro r hr
      rcases List.mem_append.mp hr with h | h
      exacts [hcf r h, hcg r h]
    have hfinal : (load_data stat0 stat1 dyn0 dyn1).1 = rf ++ rg := by
      show dropna (readFolder stat0 ++ readFolder stat1) = rf ++ rg
      rw [h0, h1, List.append_nil, hdrop]
    refine ⟨hfinal, ?_⟩
    rw [hfinal, List.length_append, hrf, hrg]

/-- Concrete rows for the loader witnesses: five complete records. -/
def rowsA : List Row :=
  [Row.mk (some 1) (some 1) (some 1) (some 1),
   Row.mk (some 2) (some 2) (some 2) (some 2),
   Row.mk (some 3) (some 3) (some 3) (some 3)]

/-- Two more complete records, forming the second static file. -/
def rowsB : List Row :=
  [Row.mk (some 4) (some 4) (some 4) (some 4),
   Row.mk (some 5) (some 5) (some 5) (some 5)]

/-- A static folder listed out of order, with a non-CSV distractor file:
`b.csv` (2 rows), `notes.txt`, `a.csv` (3 rows). -/
def statFolder : Dir :=
  [(['b', '.', 'c', 's', 'v'], rowsB),
   (['n', 'o', 't', 'e', 's', '.', 't', 'x', 't'],
     [Row.mk none none none none]),
   (['a', '.', 'c', 's', 'v'], rowsA)]

/-- C5 witness: the theorem instantiated on `statFolder`, whose listing
is unsorted and contains a `.txt` distractor; the training set is the
5-row concatenation `rowsA ++ rowsB` in sorted-file order. -/
theorem load_data_sorted_csv_concat_witness :
    (load_data statFolder [] [] []).1 = rowsA ++ rowsB
      ∧ (load_data statFolder [] [] []).1.length = 5 :=
  load_data_sorted_csv_concat.2.2 statFolder [] [] []
    ['a', '.', 'c', 's', 'v'] ['b', '.', 'c', 's', 'v'] rowsA rowsB
    (by decide) (by decide) (by decide) (by decide)
    (by decide) (by decide) (by decide) (by decide)

/-- A complete row `[1, 2, 3, 4]`. -/
def fullRow : Row := Row.mk (some 1) (some 2) (some 3) (some 4)

/-- A row `[5, 6, 7, NaN]` with a missing value in its last column. -/
def naRow : Row := Row.mk (some 5) (some 6) (some 7) none

/-- A folder holding one CSV file whose rows are `[1,2,3,4]` and
`[5,6,7,NaN]`. -/
def nanFolder : Dir := [(['m', '.', 'c', 's', 'v'], [fullRow, naRow])]

/-- C6: `load_data` drops every row containing a missing value from both
resulting datasets — each returned dataset is exactly the concatenated
raw rows filtered down to the complete ones, so every surviving row is
complete; concretely, folders whose CSV holds the rows `[1,2,3,4]` and
`[5,6,7,NaN]` yield datasets containing only the first row. -/
theorem load_data_dropna_complete :
    (∀ stat0 stat1 dyn0 dyn1 : Dir,
        (load_data stat0 stat1 dyn0 dyn1).1
            = (readFolder stat0 ++ readFolder stat1).filter (fun r => r.complete)
          ∧ (load_data stat0 stat1 dyn0 dyn1).2
            = (readFolder dyn0 ++ readFolder dyn1).filter (fun r => r.complete)
          ∧ (∀ r ∈ (load_data stat0 stat1 dyn0 dyn1).1, r.complete = true)
          ∧ (∀ r ∈ (load_data stat0 stat1 dyn0 dyn1).2, r.complete = true))
      ∧ (load_data nanFolder [] nanFolder []).1 = [fullRow]
      ∧ (load_data nanFolder [] nanFolder []).2 = [fullRow] := by
  refine ⟨fun stat0 stat1 dyn0 dyn1 => ⟨rfl, rfl, ?_, ?_⟩, by decide, by decide⟩
  · intro r hr
    exact List.of_mem_filter hr
  · intro r hr
    exact List.of_mem_filter hr

/-- C6 witness: the theorem applied to the concrete `nanFolder` layout;
the surviving row is complete and is the only row of both datasets. -/
theorem load_data_dropna_complete_witness :
    fullRow.complete = true ∧ (load_data nanFolder [] nanFolder []).1 = [fullRow] :=
  ⟨(load_data_dropna_complete.1 nanFolder [] nanFolder []).2.2.1 fullRow
      (by rw [load_data_dropna_complete.2.1]; exact List.mem_singleton_self fullRow),
   load_data_dropna_complete.2.1⟩

/-! ### Claims about the model wrapper -/

lemma mseValue_nonneg (pred : ℚ → ℚ → ℚ × ℚ) (rows : List CRow) :
    0 ≤ mseValue pred rows := by
  unfold mseValue
  apply div_nonneg
  · apply List.sum_nonneg
    intro x hx
    obtain ⟨r, _, rfl⟩ := List.mem_map.mp hx
    positivity
  · positivity

lemma fit_history_length {α : Type} (b : Backend α) (opt : Optimizer)
    (tr te : List CRow) : ∀ (n : ℕ) (p : α),
    ((fit b opt tr te n p).2.mse).length = n
      ∧ ((fit b opt tr te n p).2.val_mse).length = n := by
  intro n
  induction n with
  | zero => intro p; simp [fit]
  | succ k ih =>
    intro p
    simp [fit, (ih _).1, (ih _).2]

lemma selectOptimizer_ok_of_valid (cfg : NNConfig)
    (h : cfg.optimizer = "adam" ∨ cfg.optimizer = "sgd") :
    ∃ opt, selectOptimizer cfg = Except.ok opt := by
  rcases h with h | h
  · exact ⟨Optimizer.adam cfg.learning_rate, by simp [selectOptimizer, h]⟩
  · refine ⟨Optimizer.sgd cfg.learning_rate cfg.momentum, ?_⟩
    have hne : cfg.optimizer ≠ "adam" := by rw [h]; decide
    simp [selectOptimizer, hne, h]

/-- The configuration of the counterexample model: an unrecognized
optimizer name, valid hidden layers, all other fields defaulted. -/
def rmspropConfig : NNConfig := { hidden_layers := [4], optimizer := "rmsprop" }

/-- C2 counterexample: constructing a `NeuralNetworkModel` with the
unrecognized optimizer name `"rmsprop"` does NOT fail: `__init__`
stores the name unchecked and `create_model` builds the network, so
construction succeeds and the model carries the bogus optimizer name. -/
theorem init_rmsprop_succeeds :
    ∃ m : NeuralNetworkModel ℚ, NeuralNetworkModel.init rmspropConfig 0 = some m
      ∧ m.config.optimizer = "rmsprop" :=
  ⟨_, rfl, rfl⟩

/-- C2 amended: constructing a model with an unrecognized optimizer name
(and a non-empty hidden-layer list) succeeds — no validation happens at
construction; the invalid-configuration error is raised only when
`train` is called, and there it precedes `fit`, so it occurs before any
training epoch runs. -/
theorem invalid_optimizer_fails_at_train {α : Type} (b : Backend α) (p : α)
    (cfg : NNConfig) (tr te : List CRow)
    (hopt1 : cfg.optimizer ≠ "adam") (hopt2 : cfg.optimizer ≠ "sgd")
    (hlayers : cfg.hidden_layers ≠ []) :
    ∃ m, NeuralNetworkModel.init cfg p = some m
      ∧ m.train b tr te = Except.error "Optimizer must be either \"adam\" or \"sgd\"" := by
  obtain ⟨ls, hls⟩ : ∃ ls, create_model cfg = some ls := by
    cases hh : cfg.hidden_layers with
    | nil => exact absurd hh hlayers
    | cons h0 rest => exact ⟨_, by unfold create_model; rw [hh]⟩
  have hsel : selectOptimizer cfg
      = Except.error "Optimizer must be either \"adam\" or \"sgd\"" := by
    simp [selectOptimizer, hopt1, hopt2]
  refine ⟨NeuralNetworkModel.mk cfg ls p, ?_, ?_⟩
  · unfold NeuralNetworkModel.init
    rw [hls]
    rfl
  · unfold NeuralNetworkModel.train
    rw [show (NeuralNetworkModel.mk cfg ls p).config = cfg from rfl, hsel]

/-- A trivial concrete backend over the unit parameter type, used by the
model-wrapper witnesses. -/
def trivialBackend : Backend Unit :=
  Backend.mk (fun _ _ p => p) (fun _ x y => (x, y))

/-- C2 amended witness: the theorem instantiated at `rmspropConfig`. -/
theorem invalid_optimizer_fails_at_train_witness :
    ∃ m, NeuralNetworkModel.init rmspropConfig () = some m
      ∧ m.train trivialBackend [] []
          = Except.error "Optimizer must be either \"adam\" or \"sgd\"" :=
  invalid_optimizer_fails_at_train trivialBackend () rmspropConfig [] []
    (by decide) (by decide) (by decide)

/-- C4: `train` resolves the configured optimizer name — `"adam"` maps
to the Adam optimizer with the configured learning rate, `"sgd"` to the
SGD optimizer with the configured learning rate and momentum — and
`train` raises an error if and only if the configured name is neither,
in which case the error is the invalid-configuration message. -/
theorem train_optimizer_selection {α : Type} (b : Backend α)
    (m : NeuralNetworkModel α) (tr te : List CRow) :
    (m.config.optimizer = "adam" →
        selectOptimizer m.config = Except.ok (Optimizer.adam m.config.learning_rate))
      ∧ (m.config.optimizer = "sgd" →
          selectOptimizer m.config
            = Except.ok (Optimizer.sgd m.config.learning_rate m.config.momentum))
      ∧ ((∃ e, m.train b tr te = Except.error e)
          ↔ m.config.optimizer ≠ "adam" ∧ m.config.optimizer ≠ "sgd")
      ∧ ∀ e, m.train b tr te = Except.error e
          → e = "Optimizer must be either \"adam\" or \"sgd\"" := by
  have hadam : m.config.optimizer = "adam" →
      selectOptimizer m.config = Except.ok (Optimizer.adam m.config.learning_rate) :=
    fun h => by simp [selectOptimizer, h]
  have hsgd : m.config.optimizer = "sgd" →
      selectOptimizer m.config
        = Except.ok (Optimizer.sgd m.config.learning_rate m.config.momentum) := by
    intro h
    have hne : m.config.optimizer ≠ "adam" := by rw [h]; decide
    simp [selectOptimizer, hne, h]
  refine ⟨hadam, hsgd, ⟨?_, ?_⟩, ?_⟩
  · rintro ⟨e, he⟩
    by_contra hcon
    rw [Decidable.not_and_iff_or_not, not_not, not_not] at hcon
    obtain ⟨opt, hopt⟩ := selectOptimizer_ok_of_valid m.config hcon
    unfold NeuralNetworkModel.train at he
    rw [hopt] at he
    exact Except.noConfusion he
  · rintro ⟨h1, h2⟩
    have hsel : selectOptimizer m.config
        = Except.error "Optimizer must be either \"adam\" or \"sgd\"" := by
      simp [selectOptimizer, h1, h2]
    refine ⟨"Optimizer must be either \"adam\" or \"sgd\"", ?_⟩
    unfold NeuralNetworkModel.train
    rw [hsel]
  · intro e he
    by_cases h1 : m.config.optimizer = "adam"
    · unfold NeuralNetworkModel.train at he
      rw [hadam h1] at he
      exact Except.noConfusion he
    · by_cases h2 : m.config.optimizer = "sgd"
      · unfold NeuralNetworkModel.train at he
        rw [hsgd h2] at he
        exact Except.noConfusion he
      · have hsel : selectOptimizer m.config
            = Except.error "Optimizer must be either \"adam\" or \"sgd\"" := by
          simp [selectOptimizer, h1, h2]
        unfold NeuralNetworkModel.train at he
        rw [hsel] at he
        exact (Except.error.inj he).symm

/-- A model whose configuration selects the SGD optimizer. -/
def sgdModel : NeuralNetworkModel Unit :=
  NeuralNetworkModel.mk { hidden_layers := [3], optimizer := "sgd" } [] ()

/-- A model whose configuration names the unrecognized optimizer
`"rmsprop"`. -/
def badOptModel : NeuralNetworkModel Unit :=
  NeuralNetworkModel.mk { hidden_layers := [3], optimizer := "rmsprop" } [] ()

/-- C4 witness: the theorem instantiated at an SGD model (selection
succeeds with the configured learning rate and momentum) and at a model
with optimizer `"rmsprop"` (training errors out). -/
theorem train_optimizer_selection_witness :
    selectOptimizer sgdModel.config
        = Except.ok (Optimizer.sgd sgdModel.config.learning_rate sgdModel.config.momentum)
      ∧ ∃ e, badOptModel.train trivialBackend [] [] = Except.error e :=
  ⟨(train_optimizer_selection trivialBackend sgdModel [] []).2.1 rfl,
   (train_optimizer_selection trivialBackend badOptModel [] []).2.2.1.mpr
     ⟨by decide, by decide⟩⟩

/-- C7: with a recognized optimizer name, `train` succeeds and the
returned history carries exactly one training-error entry (via
`give_train_mse`) and one validation-error entry (via `give_test_mse`)
per configured epoch; with 0 configured epochs both series are empty. -/
theorem train_history_epochs {α : Type} (b : Backend α)
    (m : NeuralNetworkModel α) (tr te : List CRow)
    (hopt : m.config.optimizer = "adam" ∨ m.config.optimizer = "sgd") :
    ∃ m' h, m.train b tr te = Except.ok (m', h)
      ∧ (give_train_mse h).length = m.config.epochs
      ∧ (give_test_mse h).length = m.config.epochs
      ∧ (m.config.epochs = 0 → give_train_mse h = [] ∧ give_test_mse h = []) := by
  obtain ⟨opt, hsel⟩ := selectOptimizer_ok_of_valid m.config hopt
  have htrain : m.train b tr te
      = Except.ok ({ m with params := (fit b opt tr te m.config.epochs m.params).1 },
          (fit b opt tr te m.config.epochs m.params).2) := by
    unfold NeuralNetworkModel.train
    rw [hsel]
  have hlen := fit_history_length b opt tr te m.config.epochs m.params
  refine ⟨_, _, htrain, ?_, ?_, ?_⟩
  · exact hlen.1
  · exact hlen.2
  · intro h0
    constructor
    · exact List.length_eq_zero.mp (hlen.1.trans h0)
    · exact List.length_eq_zero.mp (hlen.2.trans h0)

/-- C7 witness: the theorem instantiated at the SGD model, whose epoch
count is the default 100. -/
theorem train_history_epochs_witness :
    ∃ m' h, sgdModel.train trivialBackend [] [] = Except.ok (m', h)
      ∧ (give_train_mse h).length = sgdModel.config.epochs
      ∧ (give_test_mse h).length = sgdModel.config.epochs
      ∧ (sgdModel.config.epochs = 0 → give_train_mse h = [] ∧ give_test_mse h = []) :=
  train_history_epochs trivialBackend sgdModel [] [] (Or.inr rfl)

/-- C8: `test` on a dataset of M records returns one prediction pair per
record — an (M, 2)-shaped prediction array — together with a scalar
error that is non-negative, and the model comes back unchanged: no
parameter update happens during `test`. -/
theorem test_shape_and_nonneg {α : Type} (b : Backend α)
    (m : NeuralNetworkModel α) (data : List CRow) :
    ((m.test b data).1.2).length = data.length
      ∧ 0 ≤ (m.test b data).1.1
      ∧ (m.test b data).2 = m := by
  refine ⟨?_, ?_, rfl⟩
  · simp [NeuralNetworkModel.test]
  · exact mseValue_nonneg _ _

/-- One concrete dataset record. -/
def sampleCRow : CRow := CRow.mk 1 2 3 4

/-- C8 witness: the theorem instantiated at the SGD model and a one-row
dataset. -/
theorem test_shape_and_nonneg_witness :
    ((sgdModel.test trivialBackend [sampleCRow]).1.2).length = [sampleCRow].length
      ∧ 0 ≤ (sgdModel.test trivialBackend [sampleCRow]).1.1
      ∧ (sgdModel.test trivialBackend [sampleCRow]).2 = sgdModel :=
  test_shape_and_nonneg trivialBackend sgdModel [sampleCRow]

end SISE
